import Mathlib

/-!
Shallow embedding of the information-summary job orchestration core:
the rate-limit retry wrapper (`clients/generic_client.py`), the GitHub
client response handling (`clients/github_client.py`), the commit
summarization pipeline (`processors/generic_processor.py`), the job
wrapper with its watermark map (`repo/repository.py`), and the command
parser (`cli/__init__.py`, `main.py`).
-/

namespace InfoSummary

/-! ## Retry wrapper: `auto_retry_on_rate_limit` in `clients/generic_client.py` -/

/-- Outcome of one invocation of the wrapped operation: a normal return,
a `RateLimitException` carrying an optional reset instant (seconds), or
any other exception. -/
inductive CallOutcome where
  | ok (v : String)
  | rateLimited (reset : Option ℚ)
  | failed (msg : String)
deriving DecidableEq, Repr

/-- Error that escapes the retry wrapper: the re-raised
`RateLimitException`, or a non-rate-limit exception it never catches. -/
inductive RunError where
  | rateLimitExc (reset : Option ℚ)
  | exc (msg : String)
deriving DecidableEq, Repr

/-- Delay computation of the wrapper body: `delay = base_delay *
(backoff_factor ** retries)`, raised to `(reset_time - now)` when a reset
instant is present and lies strictly in the future. -/
def computeDelay (base factor : ℚ) (retries : Nat) (reset : Option ℚ) (now : ℚ) : ℚ :=
  let delay := base * factor ^ retries
  match reset with
  | some r => if now < r then max delay (r - now) else delay
  | none => delay

/-- The retry loop. `k` is the current value of `retries`, `remaining`
is `max_retries - retries`. `op k` is the outcome of the invocation made
with counter `k`; `now k` is the clock reading at that point. Returns the
final result together with the list of delays slept. -/
def autoRetryAux (op : Nat → CallOutcome) (now : Nat → ℚ) (base factor : ℚ) :
    Nat → Nat → Except RunError String × List ℚ
  | k, 0 =>
    match op k with
    | .ok v => (.ok v, [])
    | .failed m => (.error (.exc m), [])
    | .rateLimited reset => (.error (.rateLimitExc reset), [])
  | k, r + 1 =>
    match op k with
    | .ok v => (.ok v, [])
    | .failed m => (.error (.exc m), [])
    | .rateLimited reset =>
      let d := computeDelay base factor k reset (now k)
      let p := autoRetryAux op now base factor (k + 1) r
      (p.1, d :: p.2)

/-- The decorator `auto_retry_on_rate_limit(max_retries, base_delay, backoff_factor)`
applied to an operation: starts with `retries = 0`. -/
def autoRetryOnRateLimit (op : Nat → CallOutcome) (now : Nat → ℚ)
    (maxRetries : Nat) (base factor : ℚ) : Except RunError String × List ℚ :=
  autoRetryAux op now base factor 0 maxRetries

/-! ## GitHub client response handling: `clients/github_client.py` -/

/-- The truthy author/committer sub-object of a commit record. -/
structure CommitAuthor where
  name : Option String
  email : Option String
  login : Option String
deriving DecidableEq, Repr

/-- One element of the JSON array returned by the commits endpoint, with
the fields the client reads. `author`/`committer` are `none` when the
field is `null`, absent, or an empty (falsy) object. -/
structure CommitJson where
  message : String
  sha : String
  htmlUrl : String
  author : Option CommitAuthor
  committer : Option CommitAuthor
deriving DecidableEq, Repr

/-- Python `f"...{x}..."` rendering of an optional string: `None` prints
as the text "None". -/
def pyStrOpt : Option String → String
  | none => "None"
  | some s => s

/-- Result of one client fetch method: normal text, a raised
`RateLimitException` (with the reset instant parsed from the
`X-RateLimit-Reset` header when present), a plain `Exception` for any
other non-200 status, or a `KeyError` raised while processing a 200
payload. -/
inductive FetchResult where
  | ok (text : String)
  | rateLimited (resetTime : Option Int)
  | httpError (status : Nat)
  | keyError (key : String)
deriving DecidableEq, Repr

/-- Per-commit line construction inside `get_commit_messages_since`:
`author_info = commit.get("author") or commit.get("committer") or {}`;
`commit_info["author"]` is only assigned when `author_info` is truthy,
yet the formatted line reads `commit_info['author']['name']`
unconditionally, so a commit with neither author nor committer raises
`KeyError('author')`. -/
def extractCommitLine (full : Bool) (c : CommitJson) : Except String String :=
  let sha := if full then c.sha else String.mk (c.sha.data.take 7)
  match c.author.orElse (fun _ => c.committer) with
  | none => .error "author"
  | some a => .ok ("Commit " ++ sha ++ " by " ++ pyStrOpt a.name ++ ": " ++ c.message ++ "\n")

/-- Folds `extracted_info += ...` over the commits array, propagating a
`KeyError`. -/
def extractCommitLines (full : Bool) : List CommitJson → Except String String
  | [] => .ok ""
  | c :: rest =>
    match extractCommitLine full c with
    | .error k => .error k
    | .ok line =>
      match extractCommitLines full rest with
      | .error k => .error k
      | .ok tail => .ok (line ++ tail)

/-- An HTTP response to the commits endpoint: status, the optional
`X-RateLimit-Reset` header (as an epoch timestamp), and the decoded
body. -/
structure CommitsResponse where
  status : Nat
  resetHeader : Option Int
  body : List CommitJson
deriving DecidableEq, Repr

/-- Response handling of `GitHubClient.get_commit_messages_since`: 200
processes the payload (which may itself raise `KeyError`), 429 raises
`RateLimitException` with the reset header when present and `None`
otherwise, and every other status raises a plain `Exception`. -/
def getCommitMessagesSince (resp : CommitsResponse) (full : Bool) : FetchResult :=
  if resp.status == 200 then
    match extractCommitLines full resp.body with
    | .error k => .keyError k
    | .ok text => .ok text
  else if resp.status == 429 then
    .rateLimited resp.resetHeader
  else
    .httpError resp.status

/-- An HTTP response to the readme endpoint; the body is the decoded
JSON object as a key-value list. -/
structure ReadmeResponse where
  status : Nat
  resetHeader : Option Int
  body : List (String × String)
deriving DecidableEq, Repr

/-- Response handling of `GitHubClient.get_readme`: 200 returns
`data.get("content", "")`, 429 raises `RateLimitException`, anything
else raises a plain `Exception`. -/
def getReadme (resp : ReadmeResponse) : FetchResult :=
  if resp.status == 200 then
    .ok (((resp.body.find? (fun p => p.1 == "content")).map (fun p => p.2)).getD "")
  else if resp.status == 429 then
    .rateLimited resp.resetHeader
  else
    .httpError resp.status

/-! ## Processor pipeline: `GenericProcessor.summarize_repository_changes_since`
in `processors/generic_processor.py` -/

/-- Abstract client capability, as consumed by the processor: each method
may return text or raise (modelled as `Except`). Arguments mirror the
call sites in `generic_processor.py`. -/
structure ClientModel where
  getRepositoryInfo : String → String → Except String String
  getCommitMessagesSince : String → String → Int → Bool → String → Except String String
  compareTwoCommits : String → String → String → String → Except String String

/-- The "commit-summary" prompt template after `.format(owner=..., repo=...)`. -/
def commitSummaryPrompt (owner repo : String) : String :=
  "Summarize the following commit messages from " ++ owner ++ "/" ++ repo ++ ":\n\n"

/-- The "diff-analysis" prompt template (no placeholders). -/
def diffAnalysisPrompt : String :=
  "Analyze the following detailed diffs and summarize the key changes:\n\n"

/-- Splitting a character list at every occurrence of a separator
character; adjacent separators produce empty pieces, as Python `split`
with an explicit separator does. -/
def splitOnChar (c : Char) : List Char → List (List Char)
  | [] => [[]]
  | a :: t =>
    if a == c then [] :: splitOnChar c t
    else
      match splitOnChar c t with
      | [] => [[a]]
      | h :: t2 => (a :: h) :: t2

/-- Python `s.split(sep)` for a one-character separator. -/
def pySplit (sep : Char) (s : String) : List String :=
  (splitOnChar sep s.data).map String.mk

/-- Python `s.strip()`: removes leading and trailing whitespace. -/
def pyStrip (s : String) : String :=
  String.mk (((s.data.dropWhile Char.isWhitespace).reverse.dropWhile Char.isWhitespace).reverse)

/-- Python `s.startswith(p)`. -/
def pyStartsWith (s p : String) : Bool :=
  s.data.take p.data.length == p.data

/-- Python `"\n".join(xs)`. -/
def pyJoinNl : List String → String
  | [] => ""
  | [s] => s
  | s :: rest => s ++ "\n" ++ pyJoinNl rest

/-- Python `str.splitlines` for strings whose only line separator is
a newline character: splits on newlines and drops the trailing empty
piece produced by a terminal newline; the empty string gives no lines. -/
def pySplitlines (s : String) : List String :=
  if s.data.isEmpty then []
  else
    let parts := pySplit '\n' s
    if parts.getLast? == some "" then parts.dropLast else parts

/-- Whether `commit[i:i+3] == "by "` holds at character index `i`. -/
def isByAt (cs : List Char) (i : Nat) : Bool :=
  (cs.drop i).take 3 == ['b', 'y', ' ']

/-- The scan `for i in range(7, len(commit) - 2)` looking for the first
occurrence of `"by "`. -/
def findByIdx (cs : List Char) : Option Nat :=
  (List.range' 7 (cs.length - 2 - 7)).find? (fun i => isByAt cs i)

/-- Parent-sha extraction from a stripped line that starts with
`"Commit "`: on the first index `i` with `commit[i:i+3] == "by "`, sets
`parent_sha = commit[8:i]`; when no such index exists `parent_sha`
keeps its previous value. -/
def extractParentSha (commit : String) (old : String) : String :=
  match findByIdx commit.data with
  | some i => String.mk ((commit.data.drop 8).take (i - 8))
  | none => old

/-- One iteration's update of the `(commit_sha, parent_sha)` pair for a
stripped line: only lines starting with `"Commit "` change the state;
`commit_sha` takes the old `parent_sha` when that is nonempty, and
`parent_sha` is re-extracted from the line. -/
def shaStep (commit : String) (commitSha parentSha : String) : String × String :=
  if pyStartsWith commit "Commit " then
    ((if parentSha.length != 0 then parentSha else commitSha),
     extractParentSha commit parentSha)
  else (commitSha, parentSha)

/-- The diff-analysis loop body over the fetched commit lines. Returns
the list of `(base, head)` pairs passed to `compare_two_commits`, in
order; an exception from a compare or generate call propagates and
aborts the loop (there is no try/except around either call). The
per-line local `commit` enrichment in the source is dead (never folded
back into `commits_data`), so only the calls and their errors are
observable. -/
def diffLoop (client : ClientModel) (gen : String → String → Except String String)
    (owner repo : String) : List String → String → String →
    Except String (List (String × String))
  | [], _, _ => .ok []
  | line :: rest, commitSha, parentSha =>
    let commit := pyStrip line
    let st := shaStep commit commitSha parentSha
    if st.2.length != 0 && st.1.length != 0 then
      match client.compareTwoCommits owner repo st.2 st.1 with
      | .error e => .error e
      | .ok diff =>
        match (if diff.length != 0 then gen diffAnalysisPrompt diff else .ok "") with
        | .error e => .error e
        | .ok _ =>
          match diffLoop client gen owner repo rest st.1 st.2 with
          | .error e => .error e
          | .ok tr => .ok ((st.2, st.1) :: tr)
    else
      diffLoop client gen owner repo rest st.1 st.2

/-- The method `GenericProcessor.summarize_repository_changes_since`: builds the
summary prompt (optionally enriched with repository info), then either
runs the diff-analysis sub-mode or fetches plain commit messages, and in
both cases ends with a single `generate` call on the joined commit
text. -/
def summarizeChangesSince (client : ClientModel)
    (gen : String → String → Except String String)
    (owner repo : String) (since : Int) (branch : String)
    (diffAnalysis useInfo : Bool) : Except String String :=
  let prompt0 := commitSummaryPrompt owner repo
  match ((if useInfo then
          match client.getRepositoryInfo owner repo with
          | .error e => .error e
          | .ok info => .ok (prompt0 ++ "\nThe repository info is as follows:\n" ++ info ++ "\n")
        else .ok prompt0 : Except String String)) with
  | .error e => .error e
  | .ok summaryPrompt =>
    if diffAnalysis then
      match client.getCommitMessagesSince owner repo since true branch with
      | .error e => .error e
      | .ok raw =>
        let commitsData := pySplitlines raw
        match diffLoop client gen owner repo commitsData "" "" with
        | .error e => .error e
        | .ok _ =>
          gen summaryPrompt ("Detailed commit messages:" ++ pyJoinNl commitsData)
    else
      match client.getCommitMessagesSince owner repo since false branch with
      | .error e => .error e
      | .ok msgs => gen summaryPrompt ("Commit Messages:\n" ++ msgs)

/-! ## Job wrapper and watermark map: `Repository.add_jobs_to_scheduler.job_wrapper`
in `repo/repository.py` -/

/-- Reading `self.last_run_times.get(job_name)` on the watermark map. -/
def lookupTime (m : List (String × Int)) (k : String) : Option Int :=
  ((m.find? (fun p => p.1 == k)).map (fun p => p.2))

/-- Writing `self.last_run_times[job_name] = v` on the watermark map (keys are
unique, as in a Python dict: assignment replaces the existing entry or
appends a new one). -/
def setTime : List (String × Int) → String → Int → List (String × Int)
  | [], k, v => [(k, v)]
  | p :: t, k, v => if p.1 == k then (p.1, v) :: t else p :: setTime t k v

/-- Result of one `job_wrapper` invocation: the watermark map after the
invocation, and its outcome — `ok (some (title, content))` when the push
service was called successfully with that title and content, `ok none`
when no push service is configured, `error e` when the job function or
the push raised. -/
structure WrapperResult where
  lastRunTimes : List (String × Int)
  outcome : Except String (Option (String × String))
deriving Repr

/-- The closure `job_wrapper`: captures `now`, reads the previous watermark
(defaulting to seven days before `now`), writes `now` into
`last_run_times` immediately — before the job function or the push
service runs — then executes the job function on the previous watermark
and, when configured, the push service on its result. -/
def jobWrapper (jobFunc : Int → Except String String)
    (pushService : Option (String → String → Except String Unit))
    (owner repo jobName : String)
    (lastRunTimes : List (String × Int)) (now : Int) : WrapperResult :=
  let lastRun := (lookupTime lastRunTimes jobName).getD (now - 7 * 86400)
  let times := setTime lastRunTimes jobName now
  match jobFunc lastRun with
  | .error e => ⟨times, .error e⟩
  | .ok result =>
    match pushService with
    | none => ⟨times, .ok none⟩
    | some push =>
      let title := "Repository " ++ owner ++ "/" ++ repo ++ " - Job " ++ jobName ++ " Result"
      match push title result with
      | .error e => ⟨times, .error e⟩
      | .ok _ => ⟨times, .ok (some (title, result))⟩

/-! ## Command parsing: `CommandParser.parse` in `cli/__init__.py` and `main.py` -/

/-- A value of the nested command dictionary: Python `None`, a callable
leaf (identified by a label), or a nested dictionary. -/
inductive CmdEntry where
  | noop
  | leaf (opId : String)
  | group (entries : List (String × CmdEntry))
deriving Repr

/-- Observable outcome of `CommandParser.parse`: returning `None`,
returning the help text (listing the current level's keys), calling the
resolved operation with positional arguments, calling it with keyword
arguments, or raising `SyntaxError` with the accumulated command
string. -/
inductive ParseOutcome where
  | noResult
  | helpText (keys : List String)
  | callPos (opId : String) (args : List String)
  | callKw (opId : String) (kwargs : List (String × String))
  | syntaxError (cmd : String)
deriving DecidableEq, Repr

/-- Dictionary lookup `current_level[subcmd]`. -/
def lookupEntry (entries : List (String × CmdEntry)) (k : String) : Option CmdEntry :=
  ((entries.find? (fun p => p.1 == k)).map (fun p => p.2))

/-- The positional-form test on one trailing token:
`(c == "" or c[0] != "-") and (len(c) < 2 or c[1] != "-")`. -/
def isPositionalTok (c : String) : Bool :=
  (match c.data with
   | [] => true
   | ch :: _ => ch != '-') &&
  (match c.data with
   | _ :: ch :: _ => ch != '-'
   | _ => true)

/-- The keyword-form test on one trailing token:
`c.startswith("--") and "=" in c`. -/
def isKwTok (c : String) : Bool :=
  pyStartsWith c "--" && c.data.contains '='

/-- Keyword-pair decoding of a trailing token:
`c.lstrip("--").split("=")[0]` maps to `c.lstrip("--").split("=")[1]`. -/
def parseKwPair (c : String) : String × String :=
  let stripped := c.data.dropWhile (fun ch => ch == '-')
  let parts := (splitOnChar '=' stripped).map String.mk
  (parts.headD "", parts.getD 1 "")

/-- The `while True` loop of `CommandParser.parse`. `level` is
`current_level` (Python `None` when an entry mapped to `None`), `cmd`
the accumulated command text, `isFirst` the `is_first` flag. An empty
or `None` level is falsy, so any further token raises `SyntaxError`; a
leaf whose trailing tokens are neither all-positional nor all-keyword
dispatches nothing and the loop continues at the same level with the
remaining tokens. -/
def parseGo : Option (List (String × CmdEntry)) → List String → String → Bool → ParseOutcome
  | _, [], _, _ => .noResult
  | level, subcmd :: rest, cmd, isFirst =>
    let cmd' := cmd ++ " " ++ subcmd
    match level with
    | none => .syntaxError (pyStrip cmd')
    | some entries =>
      match (if entries.isEmpty then none else lookupEntry entries subcmd) with
      | none => .syntaxError (pyStrip cmd')
      | some e =>
        if subcmd == "help" && isFirst then
          .helpText (entries.map (fun p => p.1))
        else
          match e with
          | .leaf opId =>
            if rest.all isPositionalTok then .callPos opId rest
            else if rest.all isKwTok then .callKw opId (rest.map parseKwPair)
            else parseGo (some entries) rest cmd' false
          | .group g => parseGo (some g) rest cmd' false
          | .noop => parseGo none rest cmd' false

/-- The method `CommandParser.parse(prompt)`: split on single spaces and walk the
command dictionary. -/
def parseCommand (tree : List (String × CmdEntry)) (prompt : String) : ParseOutcome :=
  parseGo (some tree) (pySplit (Char.ofNat 32) prompt) "" true

/-- The command dictionary built in `main.py`. -/
def mainCommandDict : List (String × CmdEntry) :=
  [("help", .noop),
   ("exit", .leaf "exit"),
   ("scheduler", .group
     [("list", .leaf "scheduler.list"),
      ("shutdown", .leaf "scheduler.shutdown"),
      ("start", .leaf "scheduler.start"),
      ("pause", .leaf "scheduler.pause"),
      ("resume", .leaf "scheduler.resume")])]

/-- Whether a token list walks only through nested dictionaries (never
reaching a callable, `None`, or an unknown key). -/
def groupPath : List (String × CmdEntry) → List String → Bool
  | _, [] => true
  | entries, t :: rest =>
    match (if entries.isEmpty then none else lookupEntry entries t) with
    | some (.group g) => groupPath g rest
    | _ => false

/-! ## Scheduler mutual exclusion (spec §4.3) -/

/-- Modelled from the spec: the per-job-id mutual exclusion is enforced
by the external scheduling library the repository hands its jobs to
(`scheduler.add_job` in `repo/repository.py`, with the library default
of at most one concurrent instance per job id); that firing logic is
not part of the sources. Following §4.3: the state maps each job id to
its number of in-flight invocations, and `onFire` drops the fire event
(no queueing, no state change) when the job id is currently running,
otherwise it spawns one invocation. Returns the new state and whether
an invocation was spawned. -/
def onFire (inFlight : String → Nat) (jobId : String) : (String → Nat) × Bool :=
  if inFlight jobId ≠ 0 then (inFlight, false)
  else ((fun j => if j = jobId then inFlight j + 1 else inFlight j), true)

/-- Modelled from the spec: completion (success or failure) of the
in-flight invocation for a job id returns that id to the scheduled
state. -/
def onComplete (inFlight : String → Nat) (jobId : String) : String → Nat :=
  fun j => if j = jobId then inFlight j - 1 else inFlight j

/-! ## Concrete fixtures used to evaluate the models -/

/-- Whether a parse outcome is a raised `SyntaxError`. -/
def isSyntaxErr : ParseOutcome → Bool
  | .syntaxError _ => true
  | _ => false

/-- A client whose commit fetch yields two commits and whose
compare-commits call always raises. -/
def cFail : ClientModel where
  getRepositoryInfo := fun _ _ => .ok "info"
  getCommitMessagesSince := fun _ _ _ _ _ => .ok "Commit aaaa by X: m\nCommit bbbb by Y: n\n"
  compareTwoCommits := fun _ _ _ _ => .error "compare failed"

/-- A client whose commit fetch yields the empty string (no activity
since the watermark). -/
def cEmpty : ClientModel where
  getRepositoryInfo := fun _ _ => .ok "info"
  getCommitMessagesSince := fun _ _ _ _ _ => .ok ""
  compareTwoCommits := fun _ _ _ _ => .error "compare failed"

/-- A generation function that tags its input, making every call to the
processor observable in the output. -/
def genMark : String → String → Except String String :=
  fun _ input => .ok ("GEN:" ++ input)

/-- A push service that always succeeds. -/
def pushOk : String → String → Except String Unit :=
  fun _ _ => .ok ()

/-- An operation that is rate-limited (reset instant 35) on its first
invocation and fails with a non-rate-limit error on every later one. -/
def opRLthenFail : Nat → CallOutcome :=
  fun k => if k == 0 then .rateLimited (some 35) else .failed "boom"

/-- A clock stuck at instant 5. -/
def clockAt5 : Nat → ℚ :=
  fun _ => 5

/-- An in-flight census with one running invocation for job id "a". -/
def inFlightA : String → Nat :=
  fun j => if j = "a" then 1 else 0

/-! ## Helper lemmas -/

/-- Writing a watermark makes it the value subsequently read for that
job id. -/
theorem lookupTime_setTime (m : List (String × Int)) (k : String) (v : Int) :
    lookupTime (setTime m k v) k = some v := by
  induction m with
  | nil => simp [setTime, lookupTime]
  | cons p t ih =>
    by_cases h : p.1 = k
    · simp [setTime, lookupTime, h]
    · simp only [setTime, beq_iff_eq, h, if_false]
      simpa [lookupTime, h] using ih

/-- The watermark map after an invocation is the pre-invocation map
with `now` written at the job id, whatever the phases did. -/
theorem jobWrapper_lastRunTimes (jf : Int → Except String String)
    (ps : Option (String → String → Except String Unit))
    (owner repo jobName : String) (lrt : List (String × Int)) (now : Int) :
    (jobWrapper jf ps owner repo jobName lrt now).lastRunTimes = setTime lrt jobName now := by
  rcases hjf : jf ((lookupTime lrt jobName).getD (now - 7 * 86400)) with e | result
  · simp only [jobWrapper, hjf]
  · rcases ps with _ | push
    · simp only [jobWrapper, hjf]
    · rcases hp : push ("Repository " ++ owner ++ "/" ++ repo ++ " - Job " ++ jobName ++ " Result") result with e | u
      · simp only [jobWrapper, hjf, hp]
      · simp only [jobWrapper, hjf, hp]

/-! ## Claim C1 -/

/-- Claim C1 counterexample: an invocation whose job function raises a
fetch `FatalError` still moves the watermark for its job id from 100 to
the invocation-start instant 200, so a failure before delivery does not
leave the watermark unchanged. -/
theorem c1_counterexample :
    (jobWrapper (fun _ => Except.error "FatalError") none "o" "r" "j" [("j", 100)] 200).outcome
      = Except.error "FatalError" ∧
    lookupTime (jobWrapper (fun _ => Except.error "FatalError") none "o" "r" "j" [("j", 100)] 200).lastRunTimes "j"
      = some 200 ∧
    (200 : Int) ≠ 100 := by
  refine ⟨rfl, rfl, by decide⟩

/-- Claim C1 as amended: the watermark for the job id is set to the
invocation-start instant at the beginning of every invocation — before
the fetch, summarize or deliver phases run and regardless of their
outcome — and it is monotonic non-decreasing per job id provided
successive invocation-start instants are non-decreasing. -/
theorem jobWrapper_watermark_always_advances (jf : Int → Except String String)
    (ps : Option (String → String → Except String Unit))
    (owner repo jobName : String) (lrt : List (String × Int)) (now : Int) :
    lookupTime (jobWrapper jf ps owner repo jobName lrt now).lastRunTimes jobName = some now ∧
    (∀ old : Int, lookupTime lrt jobName = some old → old ≤ now →
      ∀ w : Int, lookupTime (jobWrapper jf ps owner repo jobName lrt now).lastRunTimes jobName = some w →
        old ≤ w) := by
  have hset := jobWrapper_lastRunTimes jf ps owner repo jobName lrt now
  constructor
  · rw [hset]; exact lookupTime_setTime lrt jobName now
  · intro old _ hle w hw
    rw [hset, lookupTime_setTime] at hw
    cases hw
    exact hle

/-- Claim C1 witness: the amended statement at a concrete invocation. -/
theorem c1_witness :
    lookupTime (jobWrapper (fun _ => Except.error "FatalError") none "o" "r" "j" [("j", 100)] 200).lastRunTimes "j" = some 200 ∧
    (100 : Int) ≤ 200 := by
  refine ⟨(jobWrapper_watermark_always_advances _ _ _ _ _ _ _).1, ?_⟩
  have h2 := (jobWrapper_watermark_always_advances (fun _ => Except.error "FatalError") none "o" "r" "j" [("j", 100)] 200).2
  exact h2 100 rfl (by decide) 200 (jobWrapper_watermark_always_advances _ _ _ _ _ _ _).1

/-! ## Claim C2 -/

/-- Claim C2: the committed watermark equals the invocation-start
instant captured before any remote call, for every job function and
push service (hence independently of how long the phases took), and it
differs from any completion instant strictly after the start. -/
theorem jobWrapper_commits_invocation_start (jf : Int → Except String String)
    (ps : Option (String → String → Except String Unit))
    (owner repo jobName : String) (lrt : List (String × Int)) (now completion : Int)
    (h : now < completion) :
    lookupTime (jobWrapper jf ps owner repo jobName lrt now).lastRunTimes jobName = some now ∧
    lookupTime (jobWrapper jf ps owner repo jobName lrt now).lastRunTimes jobName ≠ some completion := by
  have hset := jobWrapper_lastRunTimes jf ps owner repo jobName lrt now
  constructor
  · rw [hset]; exact lookupTime_setTime lrt jobName now
  · rw [hset, lookupTime_setTime]
    intro hc
    cases hc
    exact absurd rfl (Int.ne_of_lt h)

/-- Claim C2 witness: a concrete slow invocation (start 1000, completion
1500) commits watermark 1000, not 1500. -/
theorem c2_witness :
    lookupTime (jobWrapper (fun _ => Except.ok "s") (some pushOk) "o" "r" "j" [] 1000).lastRunTimes "j" = some 1000 ∧
    lookupTime (jobWrapper (fun _ => Except.ok "s") (some pushOk) "o" "r" "j" [] 1000).lastRunTimes "j" ≠ some 1500 :=
  jobWrapper_commits_invocation_start (fun _ => Except.ok "s") (some pushOk) "o" "r" "j" [] 1000 1500 (by decide)

/-! ## Claim C3 -/

/-- Claim C3 counterexample: with a fetch that returns the empty string,
the invocation still calls the generation function (its tagged output
propagates to the result), still calls the push service with that
output, and the watermark advances — there is no empty-window skip and
no distinct no-op outcome. -/
theorem c3_counterexample :
    summarizeChangesSince cEmpty genMark "o" "r" 0 "main" false false
      = Except.ok "GEN:Commit Messages:\n" ∧
    (jobWrapper (fun since => summarizeChangesSince cEmpty genMark "o" "r" since "main" false false)
        (some pushOk) "o" "r" "j" [] 1000).outcome
      = Except.ok (some ("Repository o/r - Job j Result", "GEN:Commit Messages:\n")) ∧
    lookupTime (jobWrapper (fun since => summarizeChangesSince cEmpty genMark "o" "r" since "main" false false)
        (some pushOk) "o" "r" "j" [] 1000).lastRunTimes "j" = some 1000 := by
  refine ⟨rfl, rfl, rfl⟩

/-- Claim C3 as amended: an empty fetch result does not skip the later
phases — the summarize phase runs on the empty payload (the result is
exactly the generation function applied to the prompt and the bare
"Commit Messages:" header) and the delivery phase then runs on that
result; the watermark advances to the invocation start, but it does so
for every outcome, not as an empty-window acknowledgement. -/
theorem summarize_empty_fetch_still_calls (client : ClientModel)
    (gen : String → String → Except String String) (owner repo branch : String)
    (hfetch : ∀ s : Int, client.getCommitMessagesSince owner repo s false branch = .ok "") :
    (∀ since : Int, summarizeChangesSince client gen owner repo since branch false false
        = gen (commitSummaryPrompt owner repo) "Commit Messages:\n") ∧
    (∀ (ps : Option (String → String → Except String Unit)) (jobName : String)
        (lrt : List (String × Int)) (now : Int),
      lookupTime (jobWrapper
          (fun s => summarizeChangesSince client gen owner repo s branch false false)
          ps owner repo jobName lrt now).lastRunTimes jobName = some now) := by
  constructor
  · intro since
    have hemp : "Commit Messages:\n" ++ "" = "Commit Messages:\n" := rfl
    simp only [summarizeChangesSince, Bool.false_eq_true, if_false, hfetch since, hemp]
  · intro ps jobName lrt now
    rw [jobWrapper_lastRunTimes]
    exact lookupTime_setTime lrt jobName now

/-- Claim C3 witness: the amended statement at the concrete empty-fetch
client and tagging generator. -/
theorem c3_witness :
    summarizeChangesSince cEmpty genMark "o" "r" 0 "main" false false
      = genMark (commitSummaryPrompt "o" "r") "Commit Messages:\n" ∧
    lookupTime (jobWrapper (fun s => summarizeChangesSince cEmpty genMark "o" "r" s "main" false false)
        (some pushOk) "o" "r" "j" [] 1000).lastRunTimes "j" = some 1000 :=
  ⟨(summarize_empty_fetch_still_calls cEmpty genMark "o" "r" "main" (fun _ => rfl)).1 0,
   (summarize_empty_fetch_still_calls cEmpty genMark "o" "r" "main" (fun _ => rfl)).2 (some pushOk) "j" [] 1000⟩

/-! ## Retry wrapper lemmas -/

/-- A successful invocation returns immediately with no sleeps. -/
theorem autoRetryAux_ok_step (op : Nat → CallOutcome) (now : Nat → ℚ) (base factor : ℚ)
    (k remaining : Nat) (v : String) (h : op k = .ok v) :
    autoRetryAux op now base factor k remaining = (.ok v, []) := by
  cases remaining <;> simp [autoRetryAux, h]

/-- A non-rate-limit error propagates immediately with no sleeps. -/
theorem autoRetryAux_failed_step (op : Nat → CallOutcome) (now : Nat → ℚ) (base factor : ℚ)
    (k remaining : Nat) (e : String) (h : op k = .failed e) :
    autoRetryAux op now base factor k remaining = (.error (.exc e), []) := by
  cases remaining <;> simp [autoRetryAux, h]

/-- With no retries left, a rate-limit error is re-raised unchanged. -/
theorem autoRetryAux_rl_zero (op : Nat → CallOutcome) (now : Nat → ℚ) (base factor : ℚ)
    (k : Nat) (reset : Option ℚ) (h : op k = .rateLimited reset) :
    autoRetryAux op now base factor k 0 = (.error (.rateLimitExc reset), []) := by
  simp [autoRetryAux, h]

/-- With retries left, a rate-limit error sleeps the computed delay and
re-invokes with an incremented counter. -/
theorem autoRetryAux_rl_step (op : Nat → CallOutcome) (now : Nat → ℚ) (base factor : ℚ)
    (k r : Nat) (reset : Option ℚ) (h : op k = .rateLimited reset) :
    autoRetryAux op now base factor k (r + 1)
      = ((autoRetryAux op now base factor (k + 1) r).1,
         computeDelay base factor k reset (now k) :: (autoRetryAux op now base factor (k + 1) r).2) := by
  rw [autoRetryAux, h]

/-- If the first `j` invocations are rate-limited and invocation `j`
(counting from `k`) raises a non-rate-limit error within the retry
budget, that error propagates after exactly `j` sleeps. -/
theorem autoRetryAux_failed_after (op : Nat → CallOutcome) (now : Nat → ℚ) (base factor : ℚ) :
    ∀ (j k remaining : Nat) (e : String), j ≤ remaining →
      (∀ i, i < j → ∃ rs, op (k + i) = .rateLimited rs) →
      op (k + j) = .failed e →
      ∃ ds, autoRetryAux op now base factor k remaining = (.error (.exc e), ds) ∧ ds.length = j := by
  intro j
  induction j with
  | zero =>
    intro k remaining e _ _ hop
    rw [Nat.add_zero] at hop
    exact ⟨[], autoRetryAux_failed_step op now base factor k remaining e hop, rfl⟩
  | succ n ih =>
    intro k remaining e hle hrl hop
    obtain ⟨rs0, hrl0⟩ := hrl 0 (Nat.succ_pos n)
    rw [Nat.add_zero] at hrl0
    obtain ⟨r, rfl⟩ : ∃ r, remaining = r + 1 := ⟨remaining - 1, by omega⟩
    obtain ⟨ds, hds, hlen⟩ := ih (k + 1) r e (by omega)
      (fun i hi => by
        obtain ⟨rs, hx⟩ := hrl (i + 1) (by omega)
        exact ⟨rs, by rw [show k + 1 + i = k + (i + 1) by omega]; exact hx⟩)
      (by rw [show k + 1 + n = k + (n + 1) by omega]; exact hop)
    refine ⟨computeDelay base factor k rs0 (now k) :: ds, ?_, by simp [hlen]⟩
    rw [autoRetryAux_rl_step op now base factor k r rs0 hrl0, hds]

/-- If every invocation within the budget is rate-limited, the last
rate-limit error is re-raised after exactly `remaining` sleeps. -/
theorem autoRetryAux_all_rl (op : Nat → CallOutcome) (now : Nat → ℚ) (base factor : ℚ) :
    ∀ (remaining k : Nat) (rs : Nat → Option ℚ),
      (∀ i, i ≤ remaining → op (k + i) = .rateLimited (rs (k + i))) →
      ∃ ds, autoRetryAux op now base factor k remaining
              = (.error (.rateLimitExc (rs (k + remaining))), ds) ∧ ds.length = remaining := by
  intro remaining
  induction remaining with
  | zero =>
    intro k rs h
    have h0 := h 0 le_rfl
    rw [Nat.add_zero] at h0
    exact ⟨[], by rw [Nat.add_zero]; exact autoRetryAux_rl_zero op now base factor k _ h0, rfl⟩
  | succ n ih =>
    intro k rs h
    have h0 := h 0 (by omega)
    rw [Nat.add_zero] at h0
    obtain ⟨ds, hds, hlen⟩ := ih (k + 1) rs
      (fun i hi => by rw [show k + 1 + i = k + (i + 1) by omega]; exact h (i + 1) (by omega))
    refine ⟨computeDelay base factor k (rs k) (now k) :: ds, ?_, by simp [hlen]⟩
    rw [autoRetryAux_rl_step op now base factor k n (rs k) h0, hds]
    rw [show k + 1 + n = k + (n + 1) by omega]

/-- The number of sleeps never exceeds the retry budget. -/
theorem autoRetryAux_length (op : Nat → CallOutcome) (now : Nat → ℚ) (base factor : ℚ) :
    ∀ (remaining k : Nat), (autoRetryAux op now base factor k remaining).2.length ≤ remaining := by
  intro remaining
  induction remaining with
  | zero =>
    intro k
    cases h : op k with
    | ok v => simp [autoRetryAux_ok_step op now base factor k 0 v h]
    | rateLimited reset => simp [autoRetryAux_rl_zero op now base factor k reset h]
    | failed m => simp [autoRetryAux_failed_step op now base factor k 0 m h]
  | succ n ih =>
    intro k
    cases h : op k with
    | ok v => simp [autoRetryAux_ok_step op now base factor k (n + 1) v h]
    | failed m => simp [autoRetryAux_failed_step op now base factor k (n + 1) m h]
    | rateLimited reset =>
      rw [autoRetryAux_rl_step op now base factor k n reset h]
      simpa using Nat.succ_le_succ (ih (k + 1))

/-- The delay slept before retry `j + 1` when the first `j + 1`
invocations are rate-limited. -/
theorem autoRetryAux_trace_get (op : Nat → CallOutcome) (now : Nat → ℚ) (base factor : ℚ) :
    ∀ (j k remaining : Nat) (rs : Nat → Option ℚ), j < remaining →
      (∀ i, i ≤ j → op (k + i) = .rateLimited (rs (k + i))) →
      (autoRetryAux op now base factor k remaining).2.get? j
        = some (computeDelay base factor (k + j) (rs (k + j)) (now (k + j))) := by
  intro j
  induction j with
  | zero =>
    intro k remaining rs hlt h
    obtain ⟨r, rfl⟩ : ∃ r, remaining = r + 1 := ⟨remaining - 1, by omega⟩
    have h0 := h 0 le_rfl
    rw [Nat.add_zero] at h0
    rw [autoRetryAux_rl_step op now base factor k r (rs k) h0]
    simp
  | succ n ih =>
    intro k remaining rs hlt h
    obtain ⟨r, rfl⟩ : ∃ r, remaining = r + 1 := ⟨remaining - 1, by omega⟩
    have h0 := h 0 (by omega)
    rw [Nat.add_zero] at h0
    rw [autoRetryAux_rl_step op now base factor k r (rs k) h0]
    simp only [List.get?_cons_succ]
    rw [ih (k + 1) r rs (by omega)
      (fun i hi => by rw [show k + 1 + i = k + (i + 1) by omega]; exact h (i + 1) (by omega))]
    rw [show k + 1 + n = k + (n + 1) by omega]

/-! ## Claim C4 -/

/-- Claim C4: the wrapper retries only on rate-limit errors — a
non-rate-limit error raised at any invocation within the budget
propagates at once with no further invocation (`j` sleeps, so `j + 1`
invocations); after `maxRetries + 1` consecutive rate-limit errors the
last error is re-raised unchanged after exactly `maxRetries` sleeps
(`maxRetries + 1` invocations); and no run ever sleeps more than
`maxRetries` times, bounding total invocations by `maxRetries + 1`. -/
theorem autoRetry_error_policy (op : Nat → CallOutcome) (now : Nat → ℚ)
    (maxRetries : Nat) (base factor : ℚ) :
    (∀ (j : Nat) (e : String), j ≤ maxRetries →
       (∀ i, i < j → ∃ rs, op i = .rateLimited rs) → op j = .failed e →
       ∃ ds, autoRetryOnRateLimit op now maxRetries base factor = (.error (.exc e), ds) ∧
             ds.length = j) ∧
    (∀ rs : Nat → Option ℚ, (∀ i, i ≤ maxRetries → op i = .rateLimited (rs i)) →
       ∃ ds, autoRetryOnRateLimit op now maxRetries base factor
               = (.error (.rateLimitExc (rs maxRetries)), ds) ∧ ds.length = maxRetries) ∧
    (autoRetryOnRateLimit op now maxRetries base factor).2.length ≤ maxRetries := by
  refine ⟨?_, ?_, ?_⟩
  · intro j e hle hrl hop
    exact autoRetryAux_failed_after op now base factor j 0 maxRetries e hle
      (fun i hi => by simpa using hrl i hi) (by simpa using hop)
  · intro rs h
    have := autoRetryAux_all_rl op now base factor maxRetries 0 rs
      (fun i hi => by simpa using h i hi)
    simpa using this
  · exact autoRetryAux_length op now base factor maxRetries 0

/-- Claim C4 witness: a first rate-limited invocation followed by a
non-rate-limit failure propagates that failure after one sleep. -/
theorem c4_witness :
    ∃ ds, autoRetryOnRateLimit opRLthenFail clockAt5 3 1 2 = (.error (.exc "boom"), ds) ∧
          ds.length = 1 :=
  (autoRetry_error_policy opRLthenFail clockAt5 3 1 2).1 1 "boom" (by decide)
    (fun i hi => ⟨some 35, by
      have hi0 : i = 0 := Nat.lt_one_iff.mp hi
      subst hi0
      rfl⟩)
    rfl

/-! ## Claim C5 -/

/-- Claim C5: the delay slept before each retry equals the backoff
computation, which is `max(base * factor ^ attempt, reset - now)` when
the reset instant lies strictly in the future and `base * factor ^
attempt` otherwise; in particular a first invocation rate-limited with
`reset = now + 30` under `maxRetries ≥ 1` sleeps at least 30 seconds
before the retry. -/
theorem autoRetry_delay_formula (op : Nat → CallOutcome) (now : Nat → ℚ)
    (maxRetries : Nat) (base factor : ℚ) (rs : Nat → Option ℚ) :
    (∀ j : Nat, j < maxRetries → (∀ i, i ≤ j → op i = .rateLimited (rs i)) →
       (autoRetryOnRateLimit op now maxRetries base factor).2.get? j
         = some (computeDelay base factor j (rs j) (now j))) ∧
    (∀ (j : Nat) (r t : ℚ), t < r →
       computeDelay base factor j (some r) t = max (base * factor ^ j) (r - t)) ∧
    (∀ (j : Nat) (r t : ℚ), ¬ t < r →
       computeDelay base factor j (some r) t = base * factor ^ j) ∧
    (∀ r : ℚ, 1 ≤ maxRetries → op 0 = .rateLimited (some r) → now 0 + 30 ≤ r →
       ∃ d, (autoRetryOnRateLimit op now maxRetries base factor).2.get? 0 = some d ∧ 30 ≤ d) := by
  refine ⟨?_, ?_, ?_, ?_⟩
  · intro j hlt h
    have := autoRetryAux_trace_get op now base factor j 0 maxRetries rs hlt
      (fun i hi => by simpa using h i hi)
    simpa using this
  · intro j r t ht
    simp [computeDelay, ht]
  · intro j r t ht
    simp [computeDelay, ht]
  · intro r hmr hop hreset
    obtain ⟨m, rfl⟩ : ∃ m, maxRetries = m + 1 := ⟨maxRetries - 1, by omega⟩
    rw [autoRetryOnRateLimit, autoRetryAux_rl_step op now base factor 0 m (some r) hop]
    refine ⟨computeDelay base factor 0 (some r) (now 0), by simp, ?_⟩
    have hfut : now 0 < r := by linarith
    rw [show computeDelay base factor 0 (some r) (now 0)
          = max (base * factor ^ 0) (r - now 0) by simp [computeDelay, hfut]]
    have h30 : (30 : ℚ) ≤ r - now 0 := by linarith
    exact le_trans h30 (le_max_right _ _)

/-- Claim C5 witness: first invocation rate-limited with reset instant
35 while the clock reads 5 (reset = now + 30); the slept delay is at
least 30. -/
theorem c5_witness :
    ∃ d, (autoRetryOnRateLimit opRLthenFail clockAt5 3 1 2).2.get? 0 = some d ∧ 30 ≤ d :=
  (autoRetry_delay_formula opRLthenFail clockAt5 3 1 2 (fun _ => some 35)).2.2.2 35
    (by decide) rfl (by norm_num [clockAt5])

/-! ## Claim C6 -/

/-- A string has nonzero length exactly when it is not the empty
string. -/
theorem string_length_ne_zero_iff (s : String) : s.length ≠ 0 ↔ s ≠ "" := by
  constructor
  · intro h he
    subst he
    exact h rfl
  · intro h hl
    apply h
    cases s with
    | mk data =>
      cases data with
      | nil => rfl
      | cons a t => simp [String.length] at hl

/-- Every pair handed to the compare-commits capability by the
diff-analysis loop has a nonempty base and a nonempty head: a pair with
either side missing is skipped. -/
theorem diffLoop_pairs_nonempty (client : ClientModel)
    (gen : String → String → Except String String) (owner repo : String) :
    ∀ (lines : List String) (cs ps : String) (tr : List (String × String)),
      diffLoop client gen owner repo lines cs ps = .ok tr →
      ∀ p ∈ tr, p.1 ≠ "" ∧ p.2 ≠ "" := by
  intro lines
  induction lines with
  | nil =>
    intro cs ps tr h p hp
    simp only [diffLoop] at h
    cases h
    simp at hp
  | cons line rest ih =>
    intro cs ps tr h p hp
    simp only [diffLoop] at h
    split at h
    · rename_i hguard
      split at h
      · cases h
      · split at h
        · cases h
        · split at h
          · cases h
          · rename_i tr' htr'
            cases h
            rcases List.mem_cons.mp hp with hph | hpt
            · subst hph
              have h2 := (Bool.and_eq_true _ _).mp hguard
              refine ⟨?_, ?_⟩
              · exact (string_length_ne_zero_iff _).mp (by simpa using h2.1)
              · exact (string_length_ne_zero_iff _).mp (by simpa using h2.2)
            · exact ih _ _ tr' htr' p hpt
    · exact ih _ _ tr h p hp

/-- Claim C6 counterexample: a fetch yielding two commit lines followed
by a failing compare-commits call makes the whole summarize call raise
that compare error — the single diff failure aborts the job invocation
instead of degrading gracefully. -/
theorem c6_counterexample :
    summarizeChangesSince cFail genMark "o" "r" 0 "main" true false
      = Except.error "compare failed" := by
  rfl

/-- Claim C6 as amended: in the diff-analysis sub-mode, a pair with a
missing base or head identifier is skipped (every compare call receives
two nonempty identifiers), but a failure of a single compare-commits
call does not degrade gracefully: the error propagates out of the loop
and aborts the whole summarize call. -/
theorem diffAnalysis_skip_and_abort (client : ClientModel)
    (gen : String → String → Except String String) (owner repo : String) :
    (∀ (lines : List String) (cs ps : String) (tr : List (String × String)),
       diffLoop client gen owner repo lines cs ps = .ok tr →
       ∀ p ∈ tr, p.1 ≠ "" ∧ p.2 ≠ "") ∧
    (∀ (line : String) (rest : List String) (cs ps e : String),
       (shaStep (pyStrip line) cs ps).2 ≠ "" → (shaStep (pyStrip line) cs ps).1 ≠ "" →
       client.compareTwoCommits owner repo (shaStep (pyStrip line) cs ps).2 (shaStep (pyStrip line) cs ps).1
         = .error e →
       diffLoop client gen owner repo (line :: rest) cs ps = .error e) ∧
    (∀ (since : Int) (branch raw e : String),
       client.getCommitMessagesSince owner repo since true branch = .ok raw →
       diffLoop client gen owner repo (pySplitlines raw) "" "" = .error e →
       summarizeChangesSince client gen owner repo since branch true false = .error e) := by
  refine ⟨diffLoop_pairs_nonempty client gen owner repo, ?_, ?_⟩
  · intro line rest cs ps e h2 h1 hcmp
    simp only [diffLoop]
    rw [if_pos]
    · rw [hcmp]
    · exact (Bool.and_eq_true _ _).mpr
        ⟨by simpa using (string_length_ne_zero_iff _).mpr h2,
         by simpa using (string_length_ne_zero_iff _).mpr h1⟩
  · intro since branch raw e hfetch hloop
    simp only [summarizeChangesSince, Bool.false_eq_true, if_false, if_true, hfetch, hloop]

/-- Claim C6 witness: the amended statement at a concrete commit line
whose resolved pair is complete and whose compare call fails. -/
theorem c6_witness :
    diffLoop cFail genMark "o" "r" ["Commit bbbb by Y: n"] "" "aaa "
      = Except.error "compare failed" :=
  (diffAnalysis_skip_and_abort cFail genMark "o" "r").2.1
    "Commit bbbb by Y: n" [] "" "aaa " "compare failed"
    (by decide) (by decide) rfl

/-! ## Claim C7 -/

/-- Claim C7 (scheduler semantics modelled from the spec): a fire event
for a job id with an invocation in flight is dropped — the state is
unchanged and no invocation is spawned; job ids other than the fired one
are never touched, so distinct job ids overlap freely; and both firing
and completion preserve the invariant that each job id has at most one
invocation in flight. -/
theorem scheduler_mutual_exclusion (inFlight : String → Nat) (jobId : String) :
    (inFlight jobId ≠ 0 → onFire inFlight jobId = (inFlight, false)) ∧
    (∀ j, j ≠ jobId → (onFire inFlight jobId).1 j = inFlight j) ∧
    ((∀ j, inFlight j ≤ 1) → ∀ j, (onFire inFlight jobId).1 j ≤ 1) ∧
    ((∀ j, inFlight j ≤ 1) → ∀ j, onComplete inFlight jobId j ≤ 1) := by
  refine ⟨?_, ?_, ?_, ?_⟩
  · intro h
    simp [onFire, h]
  · intro j hj
    by_cases h0 : inFlight jobId ≠ 0
    · simp [onFire, h0]
    · simp [onFire, h0, hj]
  · intro hinv j
    by_cases h0 : inFlight jobId ≠ 0
    · simpa [onFire, h0] using hinv j
    · push_neg at h0
      by_cases hj : j = jobId
      · subst hj
        simp [onFire, h0]
      · simpa [onFire, h0, hj] using hinv j
  · intro hinv j
    by_cases hj : j = jobId
    · subst hj
      have := hinv j
      simp only [onComplete, if_true, eq_self_iff_true]
      omega
    · simpa [onComplete, hj] using hinv j

/-- Claim C7 witness: with job id "a" running, a fire event for "a" is
dropped and the census of job id "b" is untouched. -/
theorem c7_witness :
    onFire inFlightA "a" = (inFlightA, false) ∧ (onFire inFlightA "a").1 "b" = inFlightA "b" :=
  ⟨(scheduler_mutual_exclusion inFlightA "a").1 (by decide),
   (scheduler_mutual_exclusion inFlightA "a").2.1 "b" (by decide)⟩

/-! ## Claim C8 -/

/-- Claim C8 counterexample: the input "scheduler list list --x=1"
resolves to the leaf operation `scheduler list` with trailing tokens
that mix the positional and the keyword form, yet the parser does not
raise a `SyntaxError`: it ends up calling the `scheduler list` operation
with keyword arguments. -/
theorem c8_counterexample :
    parseCommand mainCommandDict "scheduler list list --x=1"
      = ParseOutcome.callKw "scheduler.list" [("x", "1")] ∧
    isSyntaxErr (parseCommand mainCommandDict "scheduler list list --x=1") = false := by
  exact ⟨by decide, by decide⟩

/-- Claim C8 as amended: an unresolvable path raises a syntax error;
and when the trailing tokens of a resolved leaf mix the positional and
keyword forms, the operation is not dispatched at that point — the
parser keeps walking the same level with the trailing tokens, which
raises a syntax error whenever the next trailing token is not itself a
key at that level (when it is, the walk continues and can call a
different operation, as the counterexample shows). -/
theorem parse_mixed_forms_fall_through (entries : List (String × CmdEntry))
    (subcmd t : String) (rest : List String) (cmd : String) (first : Bool) :
    (∀ rest2 : List String, lookupEntry entries subcmd = none →
       parseGo (some entries) (subcmd :: rest2) cmd first
         = .syntaxError (pyStrip (cmd ++ " " ++ subcmd))) ∧
    (∀ opId : String, lookupEntry entries subcmd = some (.leaf opId) →
       (subcmd == "help" && first) = false →
       ((t :: rest).all isPositionalTok) = false →
       ((t :: rest).all isKwTok) = false →
       lookupEntry entries t = none →
       parseGo (some entries) (subcmd :: t :: rest) cmd first
         = .syntaxError (pyStrip (cmd ++ " " ++ subcmd ++ " " ++ t))) := by
  constructor
  · intro rest2 h
    cases hE : entries.isEmpty <;> simp [parseGo, h, hE]
  · intro opId h hhelp hpos hkw ht
    have hE : entries.isEmpty = false := by
      cases entries with
      | nil => simp [lookupEntry] at h
      | cons a l => rfl
    simp only [parseGo, hE, Bool.false_eq_true, if_false, h, hhelp, hpos, hkw, ht]

/-- Claim C8 witness: the amended statement at the main command tree,
for the mixed-form input "exit a --b=c" whose trailing token "a" is not
a top-level key, and for the unresolvable path "foo". -/
theorem c8_witness :
    parseGo (some mainCommandDict) ["exit", "a", "--b=c"] "" true
      = ParseOutcome.syntaxError (pyStrip ("" ++ " " ++ "exit" ++ " " ++ "a")) ∧
    parseGo (some mainCommandDict) ["foo"] "" true
      = ParseOutcome.syntaxError (pyStrip ("" ++ " " ++ "foo")) :=
  ⟨(parse_mixed_forms_fall_through mainCommandDict "exit" "a" ["--b=c"] "" true).2 "exit"
      rfl rfl rfl rfl rfl,
   (parse_mixed_forms_fall_through mainCommandDict "foo" "a" [] "" true).1 [] rfl⟩

/-! ## Claim C9 -/

/-- A token list that walks only through nested dictionaries, and does
not start with the token "help", exhausts inside a command group and
makes the parse loop return without a result. -/
theorem parseGo_groupPath :
    ∀ (tokens : List String) (entries : List (String × CmdEntry)) (cmd : String) (first : Bool),
      groupPath entries tokens = true →
      (first = true → tokens.head? ≠ some "help") →
      parseGo (some entries) tokens cmd first = .noResult := by
  intro tokens
  induction tokens with
  | nil =>
    intro entries cmd first _ _
    rfl
  | cons t rest ih =>
    intro entries cmd first hg hh
    simp only [groupPath] at hg
    rcases hE : (if entries.isEmpty then none else lookupEntry entries t) with _ | e
    · rw [hE] at hg
      cases hg
    · rw [hE] at hg
      cases e with
      | noop => cases hg
      | leaf opId => cases hg
      | group g =>
        have ht : (t == "help" && first) = false := by
          cases first with
          | false => simp
          | true =>
            have hne := hh rfl
            have : t ≠ "help" := by
              intro hcontra
              exact hne (by rw [hcontra]; rfl)
            simp [this]
        simp only [parseGo, hE, ht, Bool.false_eq_true, if_false]
        exact ih g (cmd ++ " " ++ t) false hg (fun hfalse => by cases hfalse)

/-- Claim C9: a prompt whose tokens are exhausted while still inside a
command group returns no result and raises nothing — in particular the
single token "scheduler" on the main command tree parses to `None`. -/
theorem parse_group_exhausted :
    (∀ (tokens : List String) (entries : List (String × CmdEntry)) (cmd : String),
       groupPath entries tokens = true → tokens.head? ≠ some "help" →
       parseGo (some entries) tokens cmd true = .noResult) ∧
    parseCommand mainCommandDict "scheduler" = .noResult := by
  constructor
  · intro tokens entries cmd hg hh
    exact parseGo_groupPath tokens entries cmd true hg (fun _ => hh)
  · decide

/-- Claim C9 witness: the quantified statement at the main command tree
and the token list of the prompt "scheduler". -/
theorem c9_witness :
    parseGo (some mainCommandDict) ["scheduler"] "" true = ParseOutcome.noResult :=
  parse_group_exhausted.1 ["scheduler"] mainCommandDict "" rfl (by decide)

/-! ## Claim C10 -/

/-- Claim C10, evaluated: 429 responses raise `RateLimitException` with
the reset header when present and `None` otherwise; other non-200
statuses raise a plain `Exception`; a 200 readme response returns
normally — but a 200 commits response whose payload contains a commit
with neither author nor committer raises `KeyError('author')`, because
the code dereferences the conditionally-assigned author entry
unconditionally; with an author present the 200 path returns the
formatted line with the truncated sha. -/
theorem github_status_handling :
    getCommitMessagesSince ⟨200, none, [⟨"m", "abc", "u", none, none⟩]⟩ false
      = FetchResult.keyError "author" ∧
    getCommitMessagesSince ⟨429, some 99, []⟩ false = FetchResult.rateLimited (some 99) ∧
    getCommitMessagesSince ⟨429, none, []⟩ false = FetchResult.rateLimited none ∧
    getCommitMessagesSince ⟨500, none, []⟩ false = FetchResult.httpError 500 ∧
    getReadme ⟨200, none, [("content", "abc")]⟩ = FetchResult.ok "abc" ∧
    getReadme ⟨404, none, []⟩ = FetchResult.httpError 404 ∧
    getCommitMessagesSince ⟨200, none, [⟨"msg", "abcdefghij", "u", some ⟨some "Bob", none, none⟩, none⟩]⟩ false
      = FetchResult.ok "Commit abcdefg by Bob: msg\n" := by
  refine ⟨rfl, rfl, rfl, rfl, rfl, rfl, rfl⟩

end InfoSummary
